import Mathlib

/-!
Verification development for the behold repository (a file watcher that
runs a command when a watched file is meaningfully updated).

The Go sources are embedded shallowly:

* pkg/notify/notify.go — the Event Normalizer: the struct Notify becomes
  NState, the method shouldExecute becomes the Lean function shouldExecute,
  and the event branch of the method wait becomes waitStep.  The external
  collaborators (fs.IsFile, time.GetFileModifiedTime, time.Now,
  filepath.Clean) are IO probes; each raw event carries the values those
  probes return at the moment the event is handled (fields isFile, modTime,
  nowSE for the time.Now call inside shouldExecute, nowEmit for the
  time.Now call in wait).  Go map reads of missing keys yield the zero
  value, so the times map is a total function with default 0.

* pkg/notify/notify.go findDirs / findRealDirectory — the Directory
  Resolver.  filepath.Dir and filepath.Clean are Go standard library
  collaborators passed as function parameters (dirOf, clean); fs.Find,
  fs.IsDir are the opaque Glob / filesystem probes of the spec, also
  parameters.  On non-Windows targets filepath.ToSlash is the identity and
  filepath.Separator is the slash, which is how they are embedded here.

* pkg/gazer/gazer.go — the Dispatcher: the event branch of
  repeatRunAndWait becomes dispatchStep over GState; matchAny and
  getAppropriateCommand are transcribed directly.  fs.GlobMatch, render
  and the CommandTable match predicate are opaque collaborators passed as
  parameters.
-/

namespace Behold

/-! ### fsnotify operation constants (bit flags) -/

def createOp : Nat := 1

def writeOp : Nat := 2

def removeOp : Nat := 4

def renameOp : Nat := 8

def chmodOp : Nat := 16

/-! ### Event Normalizer (pkg/notify/notify.go) -/

/-- The mutable fields of the struct Notify that the classification logic
reads: the per-path map times (Go zero value 0 for absent keys),
pendingPeriod and regardRenameAsModPeriod in milliseconds, and the
detectCreate switch. -/
structure NState where
  times : String → Int
  pendingPeriod : Int
  regardRenameAsModPeriod : Int
  detectCreate : Bool

/-- A raw filesystem notification together with the values the IO probes
return while it is handled: isFile is fs.IsFile(normalized name), modTime
is time.GetFileModifiedTime(normalized name), nowSE is the time.Now()
read inside shouldExecute (rename branch), nowEmit is the time.Now() read
in wait just before the event is stored and emitted. -/
structure RawEvent where
  name : String
  op : Nat
  isFile : Bool
  modTime : Int
  nowSE : Int
  nowEmit : Int
deriving DecidableEq

/-- The Event struct of pkg/notify: a logical update event. -/
structure Event where
  Name : String
  Time : Int
deriving DecidableEq

/-- Embeds Notify.shouldExecute (notify.go lines 180-217).  The argument
isFile is the result of fs.IsFile(filePath), modifiedTime the result of
time.GetFileModifiedTime(filePath), now the result of the time.Now() call
in the rename branch. -/
def shouldExecute (n : NState) (isFile : Bool) (modifiedTime : Int) (now : Int)
    (filePath : String) (op : Nat) : Bool :=
  if op ≠ writeOp ∧ op ≠ renameOp ∧ ¬(n.detectCreate = true ∧ op = createOp) then
    false
  else
    let lastExecutionTime := n.times filePath
    if isFile = false then
      false
    else if (op = writeOp ∨ op = createOp) ∧
        modifiedTime - lastExecutionTime < n.pendingPeriod * 1000000 then
      false
    else if op = renameOp ∧ now - modifiedTime > n.regardRenameAsModPeriod * 1000000 then
      false
    else
      true

/-- Embeds one pass of the event branch of Notify.wait (notify.go lines
148-170): normalize the name with filepath.Clean (the parameter clean),
classify with shouldExecute, and on acceptance store now into the times
map and emit the Event.  The watcher.Add call for created directories
only grows the watch set and touches neither the times map nor the
emitted stream, so it does not appear in the state transition. -/
def waitStep (clean : String → String) (n : NState) (e : RawEvent) :
    NState × Option Event :=
  let normalizedName := clean e.name
  if shouldExecute n e.isFile e.modTime e.nowSE normalizedName e.op then
    let now := e.nowEmit
    ({ n with times := fun p => if p = normalizedName then now else n.times p },
      some { Name := normalizedName, Time := now })
  else
    (n, none)

/-- Runs waitStep over a list of raw events, collecting the emitted
logical events in order. -/
def processTrace (clean : String → String) (n : NState) :
    List RawEvent → NState × List Event
  | [] => (n, [])
  | e :: rest =>
    let step := waitStep clean n e
    let next := processTrace clean step.1 rest
    (next.1, step.2.toList ++ next.2)

/-- The Notify state as initialized by notify.New (notify.go lines 76-84):
empty times map, pendingPeriod 100 ms, regardRenameAsModPeriod 1000 ms,
create detection on. -/
def initialNotifyState : NState :=
  { times := fun _ => 0
    pendingPeriod := 100
    regardRenameAsModPeriod := 1000
    detectCreate := true }

/-! ### Directory Resolver (pkg/notify/notify.go findDirs, findRealDirectory) -/

/-- The glob metacharacters of strings.IndexAny(entries[i], the five
characters star, question mark, opening square bracket, opening curly
bracket, backslash) in findRealDirectory. -/
def globChar (c : Char) : Bool :=
  c = '*' ∨ c = '?' ∨ c = '[' ∨ c = '{' ∨ c = '\\'

/-- True when strings.IndexAny(s, glob metacharacters) would not be -1. -/
def hasGlobChar (s : String) : Bool :=
  s.data.any globChar

/-- Embeds strings.Split(s, slash): split a character list at every
slash, keeping empty segments. -/
def splitOnChar (sep : Char) : List Char → List (List Char)
  | [] => [[]]
  | c :: rest =>
    match splitOnChar sep rest with
    | [] => [[]]
    | g :: gs => if c = sep then [] :: g :: gs else (c :: g) :: gs

/-- The accumulation loop of findRealDirectory (notify.go lines 127-135):
concatenate the leading segments, each followed by the separator, and
stop at the first segment holding a glob metacharacter. -/
def leadingPath : List String → String
  | [] => ""
  | e :: rest => if hasGlobChar e then "" else e ++ "/" ++ leadingPath rest

/-- Modelled from the spec: fs.TrimSuffix lives in the external fs helper
package (not under src); it removes one trailing occurrence of the
suffix, as Go strings.TrimSuffix does. -/
def trimSuffix (s suf : String) : String :=
  if suf.data.length ≤ s.data.length ∧
      s.data.drop (s.data.length - suf.data.length) = suf.data then
    ⟨s.data.take (s.data.length - suf.data.length)⟩
  else
    s

/-- Embeds findRealDirectory (notify.go lines 124-143).  clean is
filepath.Clean, isDir is the fs.IsDir probe; filepath.ToSlash is the
identity on non-Windows targets and the separator is the slash. -/
def findRealDirectory (clean : String → String) (isDir : String → Bool)
    (path : String) : String :=
  let entries := (splitOnChar '/' (clean path).data).map List.asString
  let currentPath := trimSuffix (leadingPath entries) "/"
  if isDir currentPath then currentPath else ""

/-- Embeds uniq.Uniq.Add: append a string to an insertion-ordered list
unless it is already present. -/
def addUniq (l : List String) (s : String) : List String :=
  if s ∈ l then l else l ++ [s]

/-- The per-pattern loop of findDirs (notify.go lines 94-120).  dirOf is
filepath.Dir, find is the opaque fs.Find collaborator returning the pair
(matching files, directories of the matches); only the directory
component is consumed here.  After each of the three sources the length
of the accumulated set is checked against maxWatchDirs and the partial
over-limit set is returned at once. -/
def findDirsLoop (clean dirOf : String → String) (isDir : String → Bool)
    (find : String → List String × List String) (maxWatchDirs : Nat) :
    List String → List String → List String
  | [], targets => targets
  | pattern :: rest, targets =>
    let patternDir := dirOf pattern
    let realDir := findRealDirectory clean isDir patternDir
    let targets1 := if realDir.length > 0 then addUniq targets realDir else targets
    if targets1.length > maxWatchDirs then targets1
    else
      let targets2 := (find pattern).2.foldl addUniq targets1
      if targets2.length > maxWatchDirs then targets2
      else
        let targets3 := (find patternDir).2.foldl addUniq targets2
        if targets3.length > maxWatchDirs then targets3
        else findDirsLoop clean dirOf isDir find maxWatchDirs rest targets3

/-- Embeds findDirs (notify.go lines 91-122). -/
def findDirs (clean dirOf : String → String) (isDir : String → Bool)
    (find : String → List String × List String)
    (patterns : List String) (maxWatchDirs : Nat) : List String :=
  findDirsLoop clean dirOf isDir find maxWatchDirs patterns []

/-- The object built by a successful notify.New: the list of directories
put under watch and the initial normalizer state. -/
structure NotifyInit where
  watchDirs : List String
  state : NState

/-- Embeds notify.New (notify.go lines 53-89).  watcherOk stands for the
fsnotify.NewWatcher() call succeeding; on failure, and on directory-count
overflow, the error is returned and no object is produced. -/
def notifyNew (clean dirOf : String → String) (isDir : String → Bool)
    (find : String → List String × List String) (watcherOk : Bool)
    (patterns : List String) (maxWatchDirs : Nat) : Except String NotifyInit :=
  if watcherOk = false then
    Except.error "watcher init failed"
  else
    let watchDirs := findDirs clean dirOf isDir find patterns maxWatchDirs
    if watchDirs.length > maxWatchDirs then
      Except.error "too many watchDirs"
    else
      Except.ok { watchDirs := watchDirs, state := initialNotifyState }

/-- The Gazer struct of pkg/gazer (gazer.go lines 22-27); notifyObj is
nil (none) exactly when the inner notify construction failed. -/
structure GazerObj where
  patterns : List String
  notifyObj : Option NotifyInit
  isClosed : Bool

/-- Embeds gazer.New (gazer.go lines 30-42): clean every pattern, call
notify.New and discard its error (the Go source reads notify, _ :=
notify.New(cleanPatterns)), and return a Gazer unconditionally.  The Go
call site passes a single argument while notify.New takes two (version
skew inside the repository); maxWatchDirs is threaded through so that the
inner construction is the notify.New of src.  The essential behavior —
the construction error is swallowed and an object is produced anyway —
is preserved. -/
def gazerNew (clean dirOf : String → String) (isDir : String → Bool)
    (find : String → List String × List String) (watcherOk : Bool)
    (patterns : List String) (maxWatchDirs : Nat) : GazerObj :=
  let cleanPatterns := patterns.map clean
  let notifyObj :=
    (notifyNew clean dirOf isDir find watcherOk cleanPatterns maxWatchDirs).toOption
  { patterns := cleanPatterns, notifyObj := notifyObj, isClosed := false }

/-! ### Spec-side Directory Resolver (spec section 4.1, for the
refinement claim C7).  The spec describes, per pattern, three sources of
directories accumulated into a deduplicated insertion-ordered set with a
short-circuit as soon as the set exceeds maxDirs. -/

/-- Accumulate source lists of directories into a deduplicated,
insertion-ordered set, returning the partial over-limit set as soon as
its size exceeds maxDirs, without processing further sources. -/
def accumulateSources (maxDirs : Nat) : List (List String) → List String → List String
  | [], acc => acc
  | src :: rest, acc =>
    let acc2 := src.foldl addUniq acc
    if acc2.length > maxDirs then acc2 else accumulateSources maxDirs rest acc2

/-- Concatenate the per-pattern source lists in pattern order. -/
def sourcesOfPatterns (sources : String → List (List String)) :
    List String → List (List String)
  | [] => []
  | p :: rest => sources p ++ sourcesOfPatterns sources rest

/-- The three sources of spec section 4.1 exactly as the claim words
them: (1) the literal non-glob leading path prefix OF THE PATTERN ITSELF
(stopping at the first segment containing a glob metacharacter) when that
prefix is an existing directory, (2) the directories of the glob
expansion of the pattern, (3) the directories of the glob expansion of
the pattern's parent. -/
def claimSources (clean dirOf : String → String) (isDir : String → Bool)
    (find : String → List String × List String) (pattern : String) :
    List (List String) :=
  let p1 := findRealDirectory clean isDir pattern
  [if p1.length > 0 then [p1] else [], (find pattern).2, (find (dirOf pattern)).2]

/-- The Directory Resolver as the claim words it. -/
def findDirsClaim (clean dirOf : String → String) (isDir : String → Bool)
    (find : String → List String × List String)
    (patterns : List String) (maxDirs : Nat) : List String :=
  accumulateSources maxDirs
    (sourcesOfPatterns (claimSources clean dirOf isDir find) patterns) []

/-- The three sources with the claim amended at source (1): the literal
non-glob leading prefix is taken from the PARENT DIRECTORY (filepath.Dir)
of the pattern, not from the pattern itself. -/
def amendedSources (clean dirOf : String → String) (isDir : String → Bool)
    (find : String → List String × List String) (pattern : String) :
    List (List String) :=
  let p1 := findRealDirectory clean isDir (dirOf pattern)
  [if p1.length > 0 then [p1] else [], (find pattern).2, (find (dirOf pattern)).2]

/-- The Directory Resolver as the amended claim words it. -/
def findDirsAmended (clean dirOf : String → String) (isDir : String → Bool)
    (find : String → List String × List String)
    (patterns : List String) (maxDirs : Nat) : List String :=
  accumulateSources maxDirs
    (sourcesOfPatterns (amendedSources clean dirOf isDir find) patterns) []

/-! ### Dispatcher (pkg/gazer/gazer.go) -/

/-- The event value the dispatcher loop reads: the code accesses
event.Name and event.Op (gazer.go lines 74-77). -/
structure GEvent where
  Name : String
  op : Nat
deriving DecidableEq

/-- The mutable dispatcher-loop state of repeatRunAndWait: the single
scalar lastExecutionTime (gazer.go line 60, zero-initialized) and the
execution counter of the Gazer. -/
structure GState where
  lastExecutionTime : Int
  counter : Nat
deriving DecidableEq

/-- A CommandRule of the external CommandTable: run-template, extension
predicate source, regex predicate source, and the opaque compiled match
predicate c.Match. -/
structure Command where
  run : String
  ext : String
  re : String
  matchFn : String → Bool

/-- The CommandTable (config.Config): the configured rules in order. -/
structure Config where
  commands : List Command

/-- Embeds matchAny (gazer.go lines 129-138); globMatch is the opaque
fs.GlobMatch collaborator. -/
def matchAny (globMatch : String → String → Bool) :
    List String → String → Bool
  | [], _ => false
  | f :: rest, s => if globMatch f s then true else matchAny globMatch rest s

/-- The rule loop of getAppropriateCommand (gazer.go lines 142-151);
render is the opaque template renderer substituting the file path
placeholder into the run-template. -/
def commandLoop (render : String → String → String) (filePath : String) :
    List Command → String
  | [] => ""
  | c :: rest =>
    if c.run = "" ∨ (c.ext = "" ∧ c.re = "") then
      commandLoop render filePath rest
    else if c.matchFn filePath then
      render c.run filePath
    else
      commandLoop render filePath rest

/-- Embeds getAppropriateCommand (gazer.go lines 140-153). -/
def getAppropriateCommand (render : String → String → String)
    (filePath : String) (commandConfigs : Config) : String :=
  commandLoop render filePath commandConfigs.commands

/-- The dispatch-layer debounce window (gazer.go line 64). -/
def ignorePeriod : Int := 10 * 1000000

/-- Embeds one pass of the event branch of repeatRunAndWait (gazer.go
lines 74-119) with the channel receive succeeding (ok true).  The filter
is transcribed exactly as written in the source: the bitwise OR of
event.Op with the flag Write OR Rename compared against zero.
modifiedTime is the time.GetFileModifiedTime(event.Name) probe and now
the time.Now() read at line 103 before execution starts.  The returned
option is the command string started through the Process Supervisor
(none when the event was dropped or no rule matched). -/
def dispatchStep (globMatch : String → String → Bool)
    (render : String → String → String) (patterns : List String)
    (commandConfigs : Config) (st : GState) (e : GEvent)
    (modifiedTime now : Int) : GState × Option String :=
  let flag := Nat.lor writeOp renameOp
  if Nat.lor e.op flag = 0 then
    (st, none)
  else if matchAny globMatch patterns e.Name = false then
    (st, none)
  else if modifiedTime - st.lastExecutionTime < ignorePeriod then
    (st, none)
  else
    let st1 : GState := { st with counter := st.counter + 1 }
    let commandString := getAppropriateCommand render e.Name commandConfigs
    if commandString = "" then
      (st1, none)
    else
      ({ st1 with lastExecutionTime := now }, some commandString)

/-! ### Spec-side command resolution (for the implicit claim C10) -/

/-- A configured rule is usable when its run-template is nonempty and at
least one of its extension and regex predicates is nonempty. -/
def ruleUsable (c : Command) : Bool :=
  if c.run = "" ∨ (c.ext = "" ∧ c.re = "") then false else true

/-- Command resolution as the claim words it: drop the unusable rules,
take the first remaining rule whose match predicate accepts the path, and
render its run-template; the empty string when no such rule exists. -/
def specCommandChoice (render : String → String → String)
    (filePath : String) (commandConfigs : Config) : String :=
  match (commandConfigs.commands.filter (fun c => ruleUsable c)).find?
      (fun c => c.matchFn filePath) with
  | some c => render c.run filePath
  | none => ""

/-! ### Helper lemmas -/

theorem shouldExecute_isFile_false (n : NState) (modifiedTime now : Int)
    (p : String) (op : Nat) : shouldExecute n false modifiedTime now p op = false := by
  unfold shouldExecute
  split
  · rfl
  · simp

theorem shouldExecute_write_false_iff (n : NState) (modifiedTime now : Int)
    (p : String) (op : Nat)
    (hop : op = writeOp ∨ (n.detectCreate = true ∧ op = createOp)) :
    shouldExecute n true modifiedTime now p op = false ↔
      modifiedTime - n.times p < n.pendingPeriod * 1000000 := by
  rcases hop with rfl | ⟨hd, rfl⟩
  · simp only [shouldExecute, writeOp, renameOp, createOp]
    by_cases hc : modifiedTime - n.times p < n.pendingPeriod * 1000000 <;>
      simp [hc]
  · simp only [shouldExecute, writeOp, renameOp, createOp, hd]
    by_cases hc : modifiedTime - n.times p < n.pendingPeriod * 1000000 <;>
      simp [hc]

theorem shouldExecute_rename_false_iff (n : NState) (modifiedTime now : Int)
    (p : String) :
    shouldExecute n true modifiedTime now p renameOp = false ↔
      now - modifiedTime > n.regardRenameAsModPeriod * 1000000 := by
  simp only [shouldExecute, writeOp, renameOp, createOp]
  by_cases hc : now - modifiedTime > n.regardRenameAsModPeriod * 1000000 <;>
    simp [hc]

theorem waitStep_accept (clean : String → String) (n : NState) (e : RawEvent)
    (h : shouldExecute n e.isFile e.modTime e.nowSE (clean e.name) e.op = true) :
    waitStep clean n e =
      ({ n with times := fun p => if p = clean e.name then e.nowEmit else n.times p },
        some { Name := clean e.name, Time := e.nowEmit }) := by
  simp [waitStep, h]

theorem waitStep_reject (clean : String → String) (n : NState) (e : RawEvent)
    (h : shouldExecute n e.isFile e.modTime e.nowSE (clean e.name) e.op = false) :
    waitStep clean n e = (n, none) := by
  simp [waitStep, h]

/-! ### Claims about the Event Normalizer -/

/-- C1: for a raw event with operation write, or create with create
detection enabled, on a path that is a regular file, the Event Normalizer
rejects the event if and only if the file's modification time minus the
stored lastExecutionTime for that path is less than pendingPeriod
(default 100 ms, multiplied by 1000000 into the nanosecond unit of the
timestamps); consequently, starting from the state notify.New builds, a
single file written twice within pendingPeriod yields exactly one
LogicalEvent. -/
theorem c1_write_debounce (n : NState) (modifiedTime now : Int) (p : String)
    (op : Nat)
    (hop : op = writeOp ∨ (n.detectCreate = true ∧ op = createOp)) :
    (shouldExecute n true modifiedTime now p op = false ↔
      modifiedTime - n.times p < n.pendingPeriod * 1000000) ∧
    initialNotifyState.pendingPeriod = 100 ∧
    (∀ (clean : String → String) (e1 e2 : RawEvent),
      e1.op = writeOp → e2.op = writeOp →
      e1.isFile = true → e2.isFile = true →
      clean e2.name = clean e1.name →
      100 * 1000000 ≤ e1.modTime →
      e2.modTime - e1.nowEmit < 100 * 1000000 →
      (processTrace clean initialNotifyState [e1, e2]).2.length = 1) := by
  refine ⟨shouldExecute_write_false_iff n modifiedTime now p op hop, rfl, ?_⟩
  intro clean e1 e2 h1 h2 hf1 hf2 hname hm1 hm2
  have acc1 : shouldExecute initialNotifyState e1.isFile e1.modTime e1.nowSE
      (clean e1.name) e1.op = true := by
    rw [hf1, h1]
    rcases Bool.dichotomy (shouldExecute initialNotifyState true e1.modTime
      e1.nowSE (clean e1.name) writeOp) with hfalse | htrue
    · exfalso
      rw [shouldExecute_write_false_iff _ _ _ _ _ (Or.inl rfl)] at hfalse
      simp only [initialNotifyState] at hfalse
      omega
    · exact htrue
  have hstep1 := waitStep_accept clean initialNotifyState e1 acc1
  set n1 : NState :=
    { initialNotifyState with
      times := fun p => if p = clean e1.name then e1.nowEmit else
        initialNotifyState.times p } with hn1
  have rej2 : shouldExecute n1 e2.isFile e2.modTime e2.nowSE
      (clean e2.name) e2.op = false := by
    rw [hf2, h2]
    rw [shouldExecute_write_false_iff _ _ _ _ _ (Or.inl rfl)]
    simp only [hn1, initialNotifyState, hname, if_pos]
    omega
  have hstep2 := waitStep_reject clean n1 e2 rej2
  simp [processTrace, hstep1, hstep2]

/-- Witness for c1_write_debounce at a concrete input: two writes on
path a, the second 4 ns after the stored time of the first, emit one
logical event. -/
theorem c1_write_debounce_witness :
    (writeOp = writeOp ∨ (initialNotifyState.detectCreate = true ∧ writeOp = createOp)) ∧
    (processTrace (fun s => s) initialNotifyState
      [{ name := "a", op := writeOp, isFile := true, modTime := 100000000,
         nowSE := 0, nowEmit := 100000001 },
       { name := "a", op := writeOp, isFile := true, modTime := 100000005,
         nowSE := 0, nowEmit := 100000006 }]).2.length = 1 :=
  ⟨Or.inl rfl,
    (c1_write_debounce initialNotifyState 0 0 "a" writeOp (Or.inl rfl)).2.2
      (fun s => s) _ _ rfl rfl rfl rfl rfl (by norm_num) (by norm_num)⟩

/-- C2: for a raw event with operation rename on a path that is a regular
file, the Event Normalizer rejects the event if and only if the current
time minus the file's modification time exceeds regardRenameAsModPeriod
(default 1000 ms, multiplied by 1000000 into nanoseconds); so, from the
state notify.New builds, a rename within that window of the last write
emits exactly one LogicalEvent and a rename of a file untouched for
longer emits none. -/
theorem c2_rename_window (n : NState) (modifiedTime now : Int) (p : String) :
    (shouldExecute n true modifiedTime now p renameOp = false ↔
      now - modifiedTime > n.regardRenameAsModPeriod * 1000000) ∧
    initialNotifyState.regardRenameAsModPeriod = 1000 ∧
    (∀ (clean : String → String) (e : RawEvent),
      e.op = renameOp → e.isFile = true →
      (e.nowSE - e.modTime ≤ 1000 * 1000000 →
        (processTrace clean initialNotifyState [e]).2.length = 1) ∧
      (e.nowSE - e.modTime > 1000 * 1000000 →
        (processTrace clean initialNotifyState [e]).2.length = 0)) := by
  refine ⟨shouldExecute_rename_false_iff n modifiedTime now p, rfl, ?_⟩
  intro clean e hop hf
  constructor
  · intro hwin
    have acc : shouldExecute initialNotifyState e.isFile e.modTime e.nowSE
        (clean e.name) e.op = true := by
      rw [hf, hop]
      rcases Bool.dichotomy (shouldExecute initialNotifyState true e.modTime
        e.nowSE (clean e.name) renameOp) with hfalse | htrue
      · exfalso
        rw [shouldExecute_rename_false_iff] at hfalse
        simp only [initialNotifyState] at hfalse
        omega
      · exact htrue
    simp [processTrace, waitStep_accept clean initialNotifyState e acc]
  · intro hout
    have rej : shouldExecute initialNotifyState e.isFile e.modTime e.nowSE
        (clean e.name) e.op = false := by
      rw [hf, hop]
      rw [shouldExecute_rename_false_iff]
      simp only [initialNotifyState]
      omega
    simp [processTrace, waitStep_reject clean initialNotifyState e rej]

/-- Witness for c2_rename_window at a concrete input: a rename whose
modification time is current (elapsed 0) is accepted, one older than the
window is dropped. -/
theorem c2_rename_window_witness :
    (processTrace (fun s => s) initialNotifyState
      [{ name := "a", op := renameOp, isFile := true, modTime := 5,
         nowSE := 5, nowEmit := 6 }]).2.length = 1 ∧
    (processTrace (fun s => s) initialNotifyState
      [{ name := "a", op := renameOp, isFile := true, modTime := 5,
         nowSE := 2000000007, nowEmit := 2000000008 }]).2.length = 0 :=
  ⟨((c2_rename_window initialNotifyState 0 0 "a").2.2 (fun s => s)
      { name := "a", op := renameOp, isFile := true, modTime := 5,
        nowSE := 5, nowEmit := 6 } rfl rfl).1 (by norm_num),
   ((c2_rename_window initialNotifyState 0 0 "a").2.2 (fun s => s)
      { name := "a", op := renameOp, isFile := true, modTime := 5,
        nowSE := 2000000007, nowEmit := 2000000008 } rfl rfl).2 (by norm_num)⟩

/-- C8: a LogicalEvent is emitted for a raw event only when the
normalized path currently refers to a regular file. -/
theorem c8_only_regular_files (clean : String → String) (n : NState)
    (e : RawEvent) (ev : Event) (h : (waitStep clean n e).2 = some ev) :
    e.isFile = true := by
  by_cases hf : e.isFile = true
  · exact hf
  · rw [Bool.not_eq_true] at hf
    have hrej : shouldExecute n e.isFile e.modTime e.nowSE (clean e.name) e.op = false := by
      rw [hf]
      exact shouldExecute_isFile_false n e.modTime e.nowSE (clean e.name) e.op
    rw [waitStep_reject clean n e hrej] at h
    exact absurd h (by simp)

/-- Witness for c8_only_regular_files: a concrete accepted write event. -/
theorem c8_only_regular_files_witness :
    ({ name := "a", op := 2, isFile := true, modTime := 200000000,
       nowSE := 0, nowEmit := 7 } : RawEvent).isFile = true :=
  c8_only_regular_files (fun s => s) initialNotifyState
    { name := "a", op := 2, isFile := true, modTime := 200000000,
      nowSE := 0, nowEmit := 7 }
    { Name := "a", Time := 7 } (by decide)

/-- C9: on each accepted raw event the Normalizer stores the current time
into the times map exactly at the normalized path, the emitted
LogicalEvent's Time equals that stored value, a rejected event leaves the
state untouched, and when the clock reads at least the stored time for
the path the per-path stored times never decrease across the step. -/
theorem c9_last_execution_time (clean : String → String) (n : NState)
    (e : RawEvent) :
    (∀ ev, (waitStep clean n e).2 = some ev →
      ev.Time = e.nowEmit ∧
      (waitStep clean n e).1.times ev.Name = e.nowEmit ∧
      ∀ p, (waitStep clean n e).1.times p =
        if p = clean e.name then e.nowEmit else n.times p) ∧
    ((waitStep clean n e).2 = none → (waitStep clean n e).1 = n) ∧
    (n.times (clean e.name) ≤ e.nowEmit →
      ∀ p, n.times p ≤ (waitStep clean n e).1.times p) := by
  cases hse : shouldExecute n e.isFile e.modTime e.nowSE (clean e.name) e.op with
  | false =>
    rw [waitStep_reject clean n e hse]
    refine ⟨fun ev hev => absurd hev (by simp), fun _ => rfl, fun _ p => le_refl _⟩
  | true =>
    rw [waitStep_accept clean n e hse]
    refine ⟨fun ev hev => ?_, fun hnone => absurd hnone (by simp), fun hle p => ?_⟩
    · have : ev = { Name := clean e.name, Time := e.nowEmit } := by
        simpa using hev.symm
      subst this
      refine ⟨rfl, by simp, fun p => rfl⟩
    · by_cases hp : p = clean e.name
      · subst hp
        simpa using hle
      · simp [hp]

/-- Witness for c9_last_execution_time: the accepted concrete write event
updates the stored time for its path to the emitted timestamp. -/
theorem c9_last_execution_time_witness :
    ((waitStep (fun s => s) initialNotifyState
      { name := "a", op := 2, isFile := true, modTime := 200000000,
        nowSE := 0, nowEmit := 7 }).1.times "a" = 7) ∧
    ((0 : Int) ≤ 7) := by
  constructor
  · exact ((c9_last_execution_time (fun s => s) initialNotifyState
      { name := "a", op := 2, isFile := true, modTime := 200000000,
        nowSE := 0, nowEmit := 7 }).1 { Name := "a", Time := 7 } (by decide)).2.1
  · norm_num

/-! ### Claims about the Dispatcher -/

/-- C3: the dispatcher filter as written does NOT ignore events whose
operation is neither write nor rename: the source compares the bitwise
OR of event.Op with the nonzero flag Write OR Rename against zero, a
test that never holds, so a chmod event on a matching path reaches
command resolution, increments the counter and starts a command. -/
theorem c3_op_filter_dead :
    dispatchStep (fun f s => f == s) (fun r _ => r) ["a.txt"]
      { commands := [{ run := "echo", ext := ".txt", re := "",
                       matchFn := fun _ => true }] }
      { lastExecutionTime := 0, counter := 0 }
      { Name := "a.txt", op := chmodOp } 100000000 5 =
      ({ lastExecutionTime := 5, counter := 1 }, some "echo") := by
  decide

/-- C4: the counter is incremented BEFORE command resolution: an event
that passes the filters but matches no rule of the command table still
increments the execution counter, though no command is run. -/
theorem c4_counter_before_resolution :
    dispatchStep (fun f s => f == s) (fun r _ => r) ["a.txt"]
      { commands := [] }
      { lastExecutionTime := 0, counter := 0 }
      { Name := "a.txt", op := writeOp } 100000000 5 =
      ({ lastExecutionTime := 0, counter := 1 }, none) := by
  decide

/-- C5: notify.New does return the overflow error with no object, but
gazer.New discards that error and still produces a Gazer whose notifier
reference is nil: at a pattern whose glob expansion yields two
directories with maxWatchDirs one, the inner construction fails while
the outer construction returns an object anyway. -/
theorem c5_gazer_swallows_error :
    notifyNew (fun s => s) (fun _ => ".") (fun _ => false)
      (fun _ => ([], ["d1", "d2"])) true ["p"] 1 =
      Except.error "too many watchDirs" ∧
    (gazerNew (fun s => s) (fun _ => ".") (fun _ => false)
      (fun _ => ([], ["d1", "d2"])) true ["p"] 1).notifyObj = none ∧
    (gazerNew (fun s => s) (fun _ => ".") (fun _ => false)
      (fun _ => ([], ["d1", "d2"])) true ["p"] 1).patterns = ["p"] := by
  refine ⟨rfl, rfl, rfl⟩

/-- C6 counterexample: the dispatch debounce state is a single scalar,
not a per-path map — after a dispatch for a.txt at time 100000001, a
write event for the DIFFERENT path b.txt whose modification time is 4 ns
later is suppressed (no counter change, no command), refuting the claim
that only a second event for the same path is ignored. -/
theorem c6_counterexample :
    dispatchStep (fun f s => f == s) (fun r _ => r) ["a.txt", "b.txt"]
      { commands := [{ run := "echo", ext := ".txt", re := "",
                       matchFn := fun _ => true }] }
      { lastExecutionTime := 0, counter := 0 }
      { Name := "a.txt", op := writeOp } 100000000 100000001 =
      ({ lastExecutionTime := 100000001, counter := 1 }, some "echo") ∧
    dispatchStep (fun f s => f == s) (fun r _ => r) ["a.txt", "b.txt"]
      { commands := [{ run := "echo", ext := ".txt", re := "",
                       matchFn := fun _ => true }] }
      { lastExecutionTime := 100000001, counter := 1 }
      { Name := "b.txt", op := writeOp } 100000005 200000000 =
      ({ lastExecutionTime := 100000001, counter := 1 }, none) := by
  constructor <;> decide

/-- C6 amended: the dispatcher debounce state is one scalar
lastExecutionTime shared by every path: any event whose file modification
time is within ignorePeriod of the stored last dispatch time is
suppressed — state unchanged, no command run — regardless of its path. -/
theorem c6_amended_scalar_debounce (globMatch : String → String → Bool)
    (render : String → String → String) (patterns : List String)
    (commandConfigs : Config) (st : GState) (e : GEvent)
    (modifiedTime now : Int)
    (h : modifiedTime - st.lastExecutionTime < ignorePeriod) :
    dispatchStep globMatch render patterns commandConfigs st e modifiedTime now =
      (st, none) := by
  by_cases hlor : Nat.lor e.op (Nat.lor writeOp renameOp) = 0
  · simp [dispatchStep, hlor]
  · by_cases hmatch : matchAny globMatch patterns e.Name = false
    · simp [dispatchStep, hlor, hmatch]
    · simp [dispatchStep, hlor, hmatch, h]

/-- Witness for c6_amended_scalar_debounce: an event for path b.txt
arriving 4 ns after a dispatch is suppressed. -/
theorem c6_amended_scalar_debounce_witness :
    dispatchStep (fun f s => f == s) (fun r _ => r) ["b.txt"]
      { commands := [] } { lastExecutionTime := 100000001, counter := 1 }
      { Name := "b.txt", op := writeOp } 100000005 7 =
      ({ lastExecutionTime := 100000001, counter := 1 }, none) :=
  c6_amended_scalar_debounce _ _ _ _ _ _ _ _ (by norm_num [ignorePeriod])

/-! ### Claims about the Directory Resolver -/

theorem foldl_addUniq_single (acc : List String) (s : String) :
    List.foldl addUniq acc (if s.length > 0 then [s] else []) =
      if s.length > 0 then addUniq acc s else acc := by
  by_cases h : s.length > 0 <;> simp [h]

theorem findDirsLoop_eq_amended (clean dirOf : String → String)
    (isDir : String → Bool) (find : String → List String × List String)
    (maxDirs : Nat) :
    ∀ (patterns : List String) (acc : List String),
      findDirsLoop clean dirOf isDir find maxDirs patterns acc =
        accumulateSources maxDirs
          (sourcesOfPatterns (amendedSources clean dirOf isDir find) patterns)
          acc := by
  intro patterns
  induction patterns with
  | nil => intro acc; rfl
  | cons p rest ih =>
    intro acc
    simp only [findDirsLoop, sourcesOfPatterns, amendedSources,
      List.cons_append, List.nil_append, List.append_eq_has_append,
      accumulateSources]
    rw [foldl_addUniq_single]
    split_ifs <;> first | rfl | exact ih _

/-- C7 counterexample: on the glob-free pattern a/b with both a and a/b
existing directories and empty glob expansions, the source adds the
parent directory a (findDirs applies the prefix extraction to
filepath.Dir of the pattern) while the claim's algorithm, which takes the
literal leading prefix of the pattern itself, adds a/b instead. -/
theorem c7_counterexample :
    findDirs (fun s => s) (fun _ => "a") (fun s => s == "a" || s == "a/b")
      (fun _ => ([], [])) ["a/b"] 10 = ["a"] ∧
    findDirsClaim (fun s => s) (fun _ => "a") (fun s => s == "a" || s == "a/b")
      (fun _ => ([], [])) ["a/b"] 10 = ["a/b"] ∧
    findDirs (fun s => s) (fun _ => "a") (fun s => s == "a" || s == "a/b")
      (fun _ => ([], [])) ["a/b"] 10 ≠
      findDirsClaim (fun s => s) (fun _ => "a") (fun s => s == "a" || s == "a/b")
      (fun _ => ([], [])) ["a/b"] 10 := by
  refine ⟨by decide, by decide, by decide⟩

/-- C7 amended: the Directory Resolver processes each pattern by (1)
adding the literal non-glob leading path prefix OF THE PATTERN'S PARENT
DIRECTORY (filepath.Dir of the pattern, stopping at the first segment
containing a glob metacharacter) when that prefix is an existing
directory, (2) adding the directories of the glob expansion of the
pattern, and (3) adding the directories of the glob expansion of the
pattern's parent; the result is deduplicated and insertion-ordered, and
as soon as the set size exceeds maxDirs the resolver returns the partial
over-limit set without processing further sources. -/
theorem c7_resolver_amended (clean dirOf : String → String)
    (isDir : String → Bool) (find : String → List String × List String)
    (patterns : List String) (maxDirs : Nat) :
    findDirs clean dirOf isDir find patterns maxDirs =
      findDirsAmended clean dirOf isDir find patterns maxDirs :=
  findDirsLoop_eq_amended clean dirOf isDir find maxDirs patterns []

/-! ### Claim about command resolution -/

theorem commandLoop_eq_choice (render : String → String → String)
    (filePath : String) :
    ∀ cs : List Command,
      commandLoop render filePath cs =
        match (cs.filter (fun c => ruleUsable c)).find?
            (fun c => c.matchFn filePath) with
        | some c => render c.run filePath
        | none => "" := by
  intro cs
  induction cs with
  | nil => rfl
  | cons c rest ih =>
    by_cases hu : c.run = "" ∨ (c.ext = "" ∧ c.re = "")
    · have husable : ruleUsable c = false := by simp [ruleUsable, hu]
      simp only [commandLoop, List.filter_cons, husable]
      rw [if_pos hu]
      simpa using ih
    · have husable : ruleUsable c = true := by simp [ruleUsable, hu]
      by_cases hm : c.matchFn filePath = true
      · simp only [commandLoop, List.filter_cons, husable]
        rw [if_neg hu, if_pos hm]
        simp [List.find?, hm]
      · have hm' : c.matchFn filePath = false := by
          rcases Bool.dichotomy (c.matchFn filePath) with h | h
          · exact h
          · exact absurd h hm
        simp only [commandLoop, List.filter_cons, husable]
        rw [if_neg hu, if_neg (by simp [hm'])]
        simp only [List.find?, hm']
        simpa using ih

/-- C10: command resolution skips any configured rule whose run-template
is empty or whose extension and regex predicates are both empty, even
when its match predicate would accept the path; it returns the rendered
command of the first remaining rule that matches, and the empty string
when no such rule exists. -/
theorem c10_command_resolution (render : String → String → String)
    (filePath : String) (commandConfigs : Config) :
    getAppropriateCommand render filePath commandConfigs =
      specCommandChoice render filePath commandConfigs := by
  unfold getAppropriateCommand specCommandChoice
  exact commandLoop_eq_choice render filePath commandConfigs.commands

end Behold
